import Mathlib

/-!
Verification of the pydap core data model and constraint-expression parser
(`src/pydap/model.py`, `src/pydap/parsers/__init__.py`) against its design
specification.  The Python source is shallowly embedded: pure functions become
Lean functions, Python exceptions become explicit `exc` results, and the one
potentially non-terminating loop (`parse_hyperslab` on input with a missing
`]`) is modelled by a distinguished `hang` result.
-/

set_option autoImplicit false

namespace PydapPdp

/-- Result of running a piece of Python code: a value, a raised exception
(identified by its message), or non-termination. -/
inductive PyRes (α : Type) where
  | ok (a : α)
  | exc (msg : String)
  | hang
  deriving Repr, DecidableEq

def PyRes.bind {α β : Type} : PyRes α → (α → PyRes β) → PyRes β
  | .ok a, f => f a
  | .exc m, _ => .exc m
  | .hang, _ => .hang

/-- `True` exactly when the computation raised an exception. -/
def PyRes.isExc {α : Type} : PyRes α → Bool
  | .exc _ => true
  | _ => false

/-! ### Python integer conversion

`int(s)` in Python 2 strips surrounding whitespace, accepts an optional sign
followed by at least one decimal digit, and raises `ValueError` otherwise. -/

def digitsVal (l : List Char) : Int :=
  l.foldl (fun a c => a * 10 + (Int.ofNat (c.toNat - '0'.toNat))) 0

def parseSignedDigits : List Char → Option Int
  | [] => none
  | '+' :: rest =>
      if rest ≠ [] ∧ rest.all Char.isDigit then some (digitsVal rest) else none
  | '-' :: rest =>
      if rest ≠ [] ∧ rest.all Char.isDigit then some (-(digitsVal rest)) else none
  | l => if l.all Char.isDigit then some (digitsVal l) else none

/-- Strip leading and trailing whitespace, as Python's `int` does before
converting. -/
def trimWs (l : List Char) : List Char :=
  ((l.dropWhile Char.isWhitespace).reverse.dropWhile Char.isWhitespace).reverse

/-- Python's `int(·)` on a string, returning `none` where Python raises
`ValueError`. -/
def pyInt (s : String) : Option Int :=
  parseSignedDigits (trimWs s.toList)

/-- Python's `str.split(sep)` for a one-character separator (the source only
splits on `":"`, `"&"` and `"."`): every occurrence splits, and the empty
string yields one empty field. -/
def splitOnChar (sep : Char) : List Char → List (List Char)
  | [] => [[]]
  | c :: rest =>
      let r := splitOnChar sep rest
      if c = sep then [] :: r
      else
        match r with
        | [] => [[c]]
        | g :: gs => (c :: g) :: gs

/-! ### Hyperslab parser (`parse_hyperslab`) -/

/-- A Python `slice(start, stop, step)` value. -/
abbrev Slice3 : Type := Option Int × Option Int × Option Int

/-- The per-dimension branch of `parse_hyperslab`, acting on the
colon-separated fields of one bracket group.  `start = stop = step = None`
initially; groups with one, two or three fields fill them in; any other
number of fields falls through every branch and leaves the full slice. -/
def parseDimTokens : List String → PyRes Slice3
  | [t0] =>
      if t0 ≠ "" then
        match pyInt t0 with
        | none => .exc "ValueError"
        | some i => .ok (some i, some (i + 1), none)
      else .ok (none, none, none)
  | [t0, t1] =>
      match pyInt t0 with
      | none => .exc "ValueError"
      | some i0 =>
          if t1 ≠ "" then
            match pyInt t1 with
            | none => .exc "ValueError"
            | some i1 => .ok (some i0, some (i1 + 1), none)
          else .ok (some i0, none, none)
  | [t0, t1, t2] =>
      match pyInt t0 with
      | none => .exc "ValueError"
      | some i0 =>
          match pyInt t1 with
          | none => .exc "ValueError"
          | some i1 =>
              if t2 ≠ "" then
                match pyInt t2 with
                | none => .exc "ValueError"
                | some i2 => .ok (some i0, some (i2 + 1), some i1)
              else .ok (some i0, none, some i1)
  | _ => .ok (none, none, none)

/-- `dim.strip("[]")`: remove leading and trailing `[` / `]` characters. -/
def stripBrackets (s : String) : String :=
  let isBr : Char → Bool := fun c => c = '[' ∨ c = ']'
  String.mk (((s.toList.dropWhile isBr).reverse.dropWhile isBr).reverse)

/-- One bracket group: strip the brackets, split on `:`, dispatch on the
field count. -/
def parseDim (dim : String) : PyRes Slice3 :=
  parseDimTokens ((splitOnChar ':' (stripBrackets dim).toList).map String.mk)

/-- The `while to_split:` loop of `parse_hyperslab`: repeatedly cut the input
just after the first `]` (`acc` holds the reversed chars of the group being
scanned).  When a non-empty remainder has no `]`, `find` returns `-1`, the
loop consumes nothing and the source spins forever; that case is `none`
here. -/
def splitDimsGo : List Char → List Char → Option (List (List Char))
  | [], acc => if acc = [] then some [] else none
  | c :: rest, acc =>
      if c = ']' then
        match splitDimsGo rest [] with
        | none => none
        | some gs => some ((acc.reverse ++ [']']) :: gs)
      else splitDimsGo rest (c :: acc)

def splitDims (s : List Char) : Option (List (List Char)) :=
  splitDimsGo s []

def mapParseDim : List (List Char) → PyRes (List Slice3)
  | [] => .ok []
  | d :: rest =>
      (parseDim (String.mk d)).bind fun s =>
        (mapParseDim rest).bind fun ss => .ok (s :: ss)

/-- `parse_hyperslab`: split the input into bracket groups, parse each group
into a slice triple, in order. -/
def parse_hyperslab (hyperslab : String) : PyRes (List Slice3) :=
  match splitDims hyperslab.toList with
  | none => .hang
  | some dims => mapParseDim dims

/-! ### Name quoting

`model.py` quotes node names with `pydap.lib.quote` and the parser quotes
path segments with `urllib.quote`; neither function's source is part of this
repository.  Modelled from the spec: a reversible percent-escaping shared
between node names and CE path segments; alphanumerics and `_ . - /` are kept,
`%` is also kept so that quoting an already-quoted name is a no-op (the spec
requires the same scheme on both sides and flags idempotence as the intended
reading), and every other character becomes `%` followed by two uppercase hex
digits. -/

def hexDigitChar (n : Nat) : Char :=
  if n < 10 then Char.ofNat ('0'.toNat + n) else Char.ofNat ('A'.toNat + n - 10)

def quoteSafe (c : Char) : Bool :=
  c.isAlphanum ∨ c = '_' ∨ c = '.' ∨ c = '-' ∨ c = '/' ∨ c = '%'

def pyQuote (s : String) : String :=
  String.mk (s.toList.flatMap fun c =>
    if quoteSafe c then [c]
    else ['%', hexDigitChar (c.toNat / 16), hexDigitChar (c.toNat % 16)])

/-- Modelled from the spec: `urllib.unquote`, decoding `%hh` escapes;
a `%` not followed by two hex digits is left alone. -/
def hexVal (c : Char) : Option Nat :=
  if '0' ≤ c ∧ c ≤ '9' then some (c.toNat - '0'.toNat)
  else if 'a' ≤ c ∧ c ≤ 'f' then some (c.toNat - 'a'.toNat + 10)
  else if 'A' ≤ c ∧ c ≤ 'F' then some (c.toNat - 'A'.toNat + 10)
  else none

def pyUnquoteList : List Char → List Char
  | [] => []
  | '%' :: a :: b :: rest =>
      match hexVal a, hexVal b with
      | some x, some y => Char.ofNat (16 * x + y) :: pyUnquoteList rest
      | _, _ => '%' :: pyUnquoteList (a :: b :: rest)
  | c :: rest => c :: pyUnquoteList rest

def pyUnquote (s : String) : String :=
  String.mk (pyUnquoteList s.toList)

/-! ### Projection parser (`parse_projection`, `parse_ce`) -/

/-- The inner `tokenize` of `parse_projection`: split on commas at
parenthesis depth 0, yielding each stretch between top-level commas and the
final remainder. -/
def ceTokenizeGo : List Char → Int → List Char → List String
  | [], _, acc => [String.mk acc.reverse]
  | c :: rest, count, acc =>
      if c = '(' then ceTokenizeGo rest (count + 1) (c :: acc)
      else if c = ')' then ceTokenizeGo rest (count - 1) (c :: acc)
      else if c = ',' ∧ count = 0 then
        String.mk acc.reverse :: ceTokenizeGo rest count []
      else ceTokenizeGo rest count (c :: acc)

def ceTokenize (input : String) : List String :=
  ceTokenizeGo input.toList 0 []

/-- The regex `(.*?)(\[.*\])?$` applied to one dotted-path segment: a
non-greedy name followed by an optional bracket suffix.  The bracket suffix
matches exactly when the segment ends in `]` and contains a `[`; the name is
then everything before the first `[`. -/
def splitSlice (part : String) : String × Option String :=
  let cs := part.toList
  match cs.findIdx? (· = '[') with
  | some i =>
      if cs.getLast? = some ']' then
        (String.mk (cs.take i), some (String.mk (cs.drop i)))
      else (part, none)
  | none => (part, none)

/-- One projection item: either an opaque function-call token (kept whole)
or a dotted path of `(quoted name, hyperslab)` segments. -/
inductive ProjItem where
  | func (token : String)
  | path (segments : List (String × List Slice3))
  deriving Repr, DecidableEq

def parseSegs : List String → PyRes (List (String × List Slice3))
  | [] => .ok []
  | part :: rest =>
      let (name, slice_) := splitSlice part
      (parse_hyperslab (slice_.getD "")).bind fun slices =>
        (parseSegs rest).bind fun segs => .ok ((pyQuote name, slices) :: segs)

/-- The inner `parse` of `parse_projection`: a token containing `(` is
returned whole, otherwise it is split on `.` and each segment is matched
into a quoted name and a parsed hyperslab. -/
def parseToken (token : String) : PyRes ProjItem :=
  if token.toList.contains '(' then .ok (.func token)
  else
    (parseSegs ((splitOnChar '.' token.toList).map String.mk)).bind fun segs =>
      .ok (.path segs)

def mapParseToken : List String → PyRes (List ProjItem)
  | [] => .ok []
  | t :: rest =>
      (parseToken t).bind fun item =>
        (mapParseToken rest).bind fun items => .ok (item :: items)

def parse_projection (input : String) : PyRes (List ProjItem) :=
  mapParseToken (ceTokenize input)

/-- Whether `re.search('<=|>=|!=|=~|>|<|=', token)` matches: one of the
seven operator substrings occurs somewhere in the token. -/
def listStartsWith : List Char → List Char → Bool
  | [], _ => true
  | _ :: _, [] => false
  | p :: ps, s :: ss => p = s ∧ listStartsWith ps ss

def listOccurs (p : List Char) : List Char → Bool
  | [] => p.isEmpty
  | c :: rest => listStartsWith p (c :: rest) || listOccurs p rest

def hasCompOp (token : String) : Bool :=
  ["<=", ">=", "!=", "=~", ">", "<", "="].any fun op =>
    listOccurs op.toList token.toList

/-- `parse_ce`: unquote, split on `&`, drop empty tokens; no tokens gives
two empty outputs; a leading token containing a comparison operator makes
everything a selection; otherwise the first token is the projection and the
rest the selection. -/
def parse_ce (query_string : String) : PyRes (List ProjItem × List String) :=
  let tokens :=
    ((splitOnChar '&' (pyUnquote query_string).toList).map String.mk).filter (· ≠ "")
  match tokens with
  | [] => .ok ([], [])
  | t0 :: rest =>
      if hasCompOp t0 then .ok ([], t0 :: rest)
      else (parse_projection t0).bind fun proj => .ok (proj, rest)

/-! ### Claims C1–C3: the parsers -/

/-- C1: `parse_ce "a,b[0:2:9],c&a>1&b<2"` returns the projection
`[[("a",())],[("b",((0,10,2),))],[("c",())]]` and the selection
`["a>1","b<2"]`; and `parse_ce "mean(g,0)"` keeps the parenthesised item
whole as one opaque function token with an empty selection. -/
theorem c1_parse_ce_projection_selection :
    parse_ce "a,b[0:2:9],c&a>1&b<2" =
      .ok ([.path [("a", [])], .path [("b", [(some 0, some 10, some 2)])],
        .path [("c", [])]], ["a>1", "b<2"]) ∧
    parse_ce "mean(g,0)" = .ok ([.func "mean(g,0)"], []) := by
  constructor <;> decide

/-- C2: each well-formed bracket-group shape converts DAP's inclusive upper
bound to an exclusive one: `[]` gives the full slice, `[i]` gives
`(i, i+1, None)`, `[start:stop]` gives `(start, stop+1 or None, None)`,
`[start:step:stop]` gives `(start, stop+1 or None, step)`; and the parser
produces one triple per group in order, as on the three concrete inputs. -/
theorem c2_hyperslab_inclusive_to_exclusive :
    (parse_hyperslab "[]" = .ok [(none, none, none)]) ∧
    (∀ (t : String) (i : Int), pyInt t = some i →
      parseDimTokens [t] = .ok (some i, some (i + 1), none)) ∧
    (∀ (t0 t1 : String) (i0 i1 : Int), pyInt t0 = some i0 → pyInt t1 = some i1 →
      parseDimTokens [t0, t1] = .ok (some i0, some (i1 + 1), none)) ∧
    (∀ (t0 : String) (i0 : Int), pyInt t0 = some i0 →
      parseDimTokens [t0, ""] = .ok (some i0, none, none)) ∧
    (∀ (t0 t1 t2 : String) (i0 i1 i2 : Int),
      pyInt t0 = some i0 → pyInt t1 = some i1 → pyInt t2 = some i2 →
      parseDimTokens [t0, t1, t2] = .ok (some i0, some (i2 + 1), some i1)) ∧
    (∀ (t0 t1 : String) (i0 i1 : Int), pyInt t0 = some i0 → pyInt t1 = some i1 →
      parseDimTokens [t0, t1, ""] = .ok (some i0, none, some i1)) ∧
    (parse_hyperslab "[36]" = .ok [(some 36, some 37, none)]) ∧
    (parse_hyperslab "[1:2]" = .ok [(some 1, some 3, none)]) ∧
    (parse_hyperslab "[1:2:6][][3:5:]" =
      .ok [(some 1, some 7, some 2), (none, none, none), (some 3, none, some 5)]) := by
  have hne : ∀ (t : String) (i : Int), pyInt t = some i → t ≠ "" := by
    intro t i hi h
    subst h
    simp [pyInt, trimWs, parseSignedDigits] at hi
  refine ⟨by decide, ?_, ?_, ?_, ?_, ?_, by decide, by decide, by decide⟩
  · intro t i hi
    simp [parseDimTokens, hne t i hi, hi]
  · intro t0 t1 i0 i1 h0 h1
    simp [parseDimTokens, h0, h1, hne t1 i1 h1]
  · intro t0 i0 h0
    simp [parseDimTokens, h0]
  · intro t0 t1 t2 i0 i1 i2 h0 h1 h2
    simp [parseDimTokens, h0, h1, h2, hne t2 i2 h2]
  · intro t0 t1 i0 i1 h0 h1
    simp [parseDimTokens, h0, h1]

/-- Witness for C2: the universally quantified conjuncts applied at concrete
fields. -/
theorem c2_hyperslab_witness :
    parseDimTokens ["5"] = .ok (some 5, some 6, none) ∧
    parseDimTokens ["5", "7"] = .ok (some 5, some 8, none) ∧
    parseDimTokens ["5", ""] = .ok (some 5, none, none) ∧
    parseDimTokens ["5", "2", "9"] = .ok (some 5, some 10, some 2) ∧
    parseDimTokens ["5", "2", ""] = .ok (some 5, none, some 2) :=
  ⟨c2_hyperslab_inclusive_to_exclusive.2.1 "5" 5 (by decide),
   c2_hyperslab_inclusive_to_exclusive.2.2.1 "5" "7" 5 7 (by decide) (by decide),
   c2_hyperslab_inclusive_to_exclusive.2.2.2.1 "5" 5 (by decide),
   c2_hyperslab_inclusive_to_exclusive.2.2.2.2.1 "5" "2" "9" 5 2 9
     (by decide) (by decide) (by decide),
   c2_hyperslab_inclusive_to_exclusive.2.2.2.2.2.1 "5" "2" 5 2
     (by decide) (by decide)⟩

/-- C3 counterexample: a bracket group with more than three colon-separated
fields does not raise a parse error — `parse_hyperslab "[1:2:3:4]"` silently
returns the full slice `(None, None, None)`. -/
theorem c3_too_many_colons_counterexample :
    parse_hyperslab "[1:2:3:4]" = .ok [(none, none, none)] ∧
    (parse_hyperslab "[1:2:3:4]").isExc = false := by
  constructor <;> decide

/-- C3 as amended: a group with more than three colon-separated fields is
silently parsed as the full slice (no error, its fields are never examined);
within groups of at most three fields, a field that Python's `int` rejects —
in particular any non-empty non-integer field, and an empty field in a
mandatory position — raises a parse error. -/
theorem c3_amended_field_errors :
    (∀ ts : List String, 3 < ts.length → parseDimTokens ts = .ok (none, none, none)) ∧
    (∀ t : String, t ≠ "" → pyInt t = none → (parseDimTokens [t]).isExc = true) ∧
    (∀ t0 t1 : String, pyInt t0 = none → (parseDimTokens [t0, t1]).isExc = true) ∧
    (∀ (t0 t1 : String) (i0 : Int), pyInt t0 = some i0 → t1 ≠ "" → pyInt t1 = none →
      (parseDimTokens [t0, t1]).isExc = true) ∧
    (∀ t0 t1 t2 : String, pyInt t0 = none → (parseDimTokens [t0, t1, t2]).isExc = true) ∧
    (∀ (t0 t1 t2 : String) (i0 : Int), pyInt t0 = some i0 → pyInt t1 = none →
      (parseDimTokens [t0, t1, t2]).isExc = true) ∧
    (∀ (t0 t1 t2 : String) (i0 i1 : Int), pyInt t0 = some i0 → pyInt t1 = some i1 →
      t2 ≠ "" → pyInt t2 = none → (parseDimTokens [t0, t1, t2]).isExc = true) ∧
    (parse_hyperslab "[a]").isExc = true ∧
    (parse_hyperslab "[1:x]").isExc = true := by
  refine ⟨?_, ?_, ?_, ?_, ?_, ?_, ?_, by decide, by decide⟩
  · intro ts h
    match ts with
    | t0 :: t1 :: t2 :: t3 :: rest => rfl
    | [] | [_] | [_, _] | [_, _, _] => simp at h
  · intro t h0 h1
    simp [parseDimTokens, h0, h1, PyRes.isExc]
  · intro t0 t1 h0
    simp [parseDimTokens, h0, PyRes.isExc]
  · intro t0 t1 i0 h0 h1 h2
    simp [parseDimTokens, h0, h1, h2, PyRes.isExc]
  · intro t0 t1 t2 h0
    simp [parseDimTokens, h0, PyRes.isExc]
  · intro t0 t1 t2 i0 h0 h1
    simp [parseDimTokens, h0, h1, PyRes.isExc]
  · intro t0 t1 t2 i0 i1 h0 h1 h2 h3
    simp [parseDimTokens, h0, h1, h2, h3, PyRes.isExc]

/-- Witness for the amended C3: its quantified conjuncts applied at concrete
inputs. -/
theorem c3_amended_witness :
    parseDimTokens ["1", "2", "3", "4"] = .ok (none, none, none) ∧
    (parseDimTokens ["a"]).isExc = true ∧
    (parseDimTokens ["a", "1"]).isExc = true ∧
    (parseDimTokens ["1", "a"]).isExc = true ∧
    (parseDimTokens ["a", "1", "1"]).isExc = true ∧
    (parseDimTokens ["1", "a", "1"]).isExc = true ∧
    (parseDimTokens ["1", "2", "a"]).isExc = true :=
  ⟨c3_amended_field_errors.1 ["1", "2", "3", "4"] (by decide),
   c3_amended_field_errors.2.1 "a" (by decide) (by decide),
   c3_amended_field_errors.2.2.1 "a" "1" (by decide),
   c3_amended_field_errors.2.2.2.1 "1" "a" 1 (by decide) (by decide) (by decide),
   c3_amended_field_errors.2.2.2.2.1 "a" "1" "1" (by decide),
   c3_amended_field_errors.2.2.2.2.2.1 "1" "a" "1" 1 (by decide) (by decide),
   c3_amended_field_errors.2.2.2.2.2.2.1 "1" "2" "a" 1 2 (by decide) (by decide)
     (by decide) (by decide)⟩

/-! ## The data model (`model.py`)

Nodes form a tree.  The source keeps, per container, a key list `_keys` and a
dict `_dict`, synchronised so that `_keys` is a duplicate-free enumeration of
`_dict`'s keys in insertion/move-to-end order; children are always iterated
in `_keys` order.  The embedding merges the two into one ordered association
list `children` whose key order is `_keys` and whose lookup is `_dict`.

`BaseType.data` holds a numpy-like value.  numpy is an external collaborator,
so its values are embedded only as far as the claims need: integer/string
columns, structured (record) arrays with named fields, boolean masks, and an
opaque n-dimensional array that records the sequence of indexing operations
applied to it (`arr`), which is what the grid-slicing claim observes. -/

/-- A scalar stored in a column or record. -/
inductive PS where
  | i (n : Int)
  | s (v : String)
  deriving Repr, DecidableEq

/-- A Python index expression: integer, slice, list of field names, boolean
mask, or tuple of indexes. -/
inductive Idx where
  | int (i : Int)
  | slc (start stop step : Option Int)
  | names (ns : List String)
  | mask (bs : List Bool)
  | tup (elems : List Idx)
  deriving Repr

/-- Data values held by nodes. -/
inductive PyData where
  | none
  | sarr (fields : List String) (rows : List (List PS))
  | col (xs : List PS)
  | arr (base : String) (applied : List Idx)
  | pymask (bs : List Bool)
  deriving Repr

/-- Normalise a Python slice bound against a length (CPython semantics for a
positive step). -/
def normBound (len : Nat) (v : Int) : Nat :=
  if v < 0 then (max ((len : Int) + v) 0).toNat else (min v (len : Int)).toNat

/-- Keep elements at positions `0, st, 2*st, ...`. -/
def everyNth {α : Type} (xs : List α) (st : Nat) : List α :=
  (xs.enum.filter (fun p => p.1 % st == 0)).map (·.2)

/-- Python list slicing `xs[a:b:st]` for a positive (or omitted) step; other
steps are outside the model. -/
def pySliceList {α : Type} (xs : List α) (a b st : Option Int) : Option (List α) :=
  match st with
  | Option.none => some ((xs.take (normBound xs.length (b.getD xs.length))).drop
      (normBound xs.length (a.getD 0)))
  | some stv =>
      if stv ≤ 0 then Option.none
      else some (everyNth ((xs.take (normBound xs.length (b.getD xs.length))).drop
        (normBound xs.length (a.getD 0))) stv.toNat)

/-- `data[name]` on a structured array: the named field's column. -/
def pyGetField : PyData → String → Option PyData
  | .sarr fields rows, nm =>
      match fields.findIdx? (· = nm) with
      | Option.none => Option.none
      | some j =>
          match rows.mapM (fun r => r[j]?) with
          | Option.none => Option.none
          | some cols => some (.col cols)
  | _, _ => Option.none

/-- `data[index]` for the indexing forms the source exercises: boolean masks
and slices filter rows of structured arrays and columns, a list of names
selects and reorders the fields of a structured array, and any index applied
to the opaque array is recorded on its trace. -/
def pyIndex : PyData → Idx → Option PyData
  | .arr b ap, ix => some (.arr b (ap ++ [ix]))
  | .sarr fs rows, .mask bs =>
      if rows.length = bs.length then
        some (.sarr fs (((rows.zip bs).filter (·.2)).map (·.1)))
      else Option.none
  | .sarr fs rows, .slc a b st => (pySliceList rows a b st).map (.sarr fs ·)
  | .sarr fs rows, .names ns =>
      match ns.mapM (fun n => fs.findIdx? (· = n)) with
      | Option.none => Option.none
      | some js =>
          match rows.mapM (fun r => js.mapM (fun j => r[j]?)) with
          | Option.none => Option.none
          | some rows' => some (.sarr ns rows')
  | .col xs, .mask bs =>
      if xs.length = bs.length then
        some (.col (((xs.zip bs).filter (·.2)).map (·.1)))
      else Option.none
  | .col xs, .slc a b st => (pySliceList xs a b st).map (.col ·)
  | _, _ => Option.none

/-- Elementwise `data > other` on an integer column (`BaseType.__gt__`
delegates comparisons to the data). -/
def pyGTData : PyData → Int → Option PyData
  | .col xs, t =>
      match xs.mapM (fun x => match x with
        | .i n => some (decide (t < n))
        | .s _ => Option.none) with
      | Option.none => Option.none
      | some bs => some (.pymask bs)
  | _, _ => Option.none

/-- The node classes. -/
inductive NKind where
  | base
  | strct
  | dataset
  | seq
  | grid
  deriving Repr, DecidableEq

/-- A node of the pydap tree: class, `name`, `_id` (field `nid`),
`attributes`, `data`/`_data` (meaningful for `BaseType` and `SequenceType`),
`dimensions`, and the ordered children. -/
inductive Node where
  | mk (kind : NKind) (name nid : String) (attrs : List (String × PS))
      (ddata : PyData) (dims : List String) (children : List (String × Node))

def Node.kind : Node → NKind
  | .mk k _ _ _ _ _ _ => k

def Node.name : Node → String
  | .mk _ n _ _ _ _ _ => n

def Node.nid : Node → String
  | .mk _ _ i _ _ _ _ => i

def Node.attrs : Node → List (String × PS)
  | .mk _ _ _ a _ _ _ => a

def Node.ddata : Node → PyData
  | .mk _ _ _ _ d _ _ => d

def Node.dims : Node → List String
  | .mk _ _ _ _ _ dm _ => dm

def Node.children : Node → List (String × Node)
  | .mk _ _ _ _ _ _ ch => ch

/-- `_keys`: the ordered key list. -/
def Node.keys (n : Node) : List String :=
  n.children.map Prod.fst

/-- `_dict[key]`: first (only) binding for the key. -/
def Node.getChild (n : Node) (key : String) : Option Node :=
  n.children.lookup key

/-- `DapType.__init__` applied by each constructor: quote the name, start
with `_id = name`. -/
def mkBase (name : String) (data : PyData) (dims : List String)
    (attrs : List (String × PS)) : Node :=
  .mk .base (pyQuote name) (pyQuote name) attrs data dims []

def mkStructure (name : String) (attrs : List (String × PS)) : Node :=
  .mk .strct (pyQuote name) (pyQuote name) attrs .none [] []

def mkDataset (name : String) (attrs : List (String × PS)) : Node :=
  .mk .dataset (pyQuote name) (pyQuote name) attrs .none [] []

def mkSequence (name : String) (data : PyData) (attrs : List (String × PS)) : Node :=
  .mk .seq (pyQuote name) (pyQuote name) attrs data [] []

def mkGrid (name : String) (attrs : List (String × PS)) : Node :=
  .mk .grid (pyQuote name) (pyQuote name) attrs .none [] []

/- The `id` property setter `_set_id`: store the new id and recompute every
child's id — `DatasetType` overrides it so that children get bare names,
every other container prefixes its own id.  Children are updated through the
association list, which enumerates exactly `_dict`'s entries in `_keys`
order. -/
mutual

def Node.setId : Node → String → Node
  | .mk k n _ a d dm ch, i => .mk k n i a d dm (setIdChildren k i ch)

def setIdChildren : NKind → String → List (String × Node) → List (String × Node)
  | _, _, [] => []
  | k, i, (key, c) :: rest =>
      (key, c.setId (if k = .dataset then c.name else i ++ "." ++ c.name)) ::
        setIdChildren k i rest

end

/-- `StructureType.__setitem__`: quote the key, reject a key different from
the item's name, move the key to the tail of `_keys` (removing a previous
occurrence), store the item, and rebase the item's id under the container's
id. -/
def structSetItemRaw (c : Node) (key : String) (item : Node) : Except String Node :=
  match c with
  | .mk k n i a d dm ch =>
      let qkey := pyQuote key
      if qkey ≠ item.name then
        .error ("Key " ++ qkey ++ " is different from variable name " ++ item.name)
      else
        let ch1 := if (ch.map Prod.fst).contains qkey then
            ch.eraseP (fun e => e.1 == qkey) else ch
        let item' := item.setId (i ++ "." ++ item.name)
        .ok (.mk k n i a d dm (ch1 ++ [(qkey, item')]))

/-- Replace the child stored under `key` (used for `DatasetType`'s extra
`item.id = item.name`, which mutates the just-stored child). -/
def Node.updateChild : Node → String → (Node → Node) → Node
  | .mk k n i a d dm ch, key, f =>
      .mk k n i a d dm (ch.map (fun e => if e.1 = key then (e.1, f e.2) else e))

/-- `C[key] = item`: `DatasetType.__setitem__` first rejects a raw key
mismatch, then delegates to `StructureType.__setitem__` and finally resets
the stored item's id to its bare name; every other container uses
`StructureType.__setitem__` directly; `BaseType` supports no item
assignment. -/
def Node.setItem (c : Node) (key : String) (item : Node) : Except String Node :=
  match c.kind with
  | .base => .error "TypeError: object does not support item assignment"
  | .dataset =>
      if key ≠ item.name then
        .error ("Key " ++ key ++ " is different from variable name " ++ item.name)
      else
        match structSetItemRaw c key item with
        | .error e => .error e
        | .ok c' => .ok (c'.updateChild (pyQuote key) (fun ch => ch.setId ch.name))
  | _ => structSetItemRaw c key item

/- Assigning to a node's `data` attribute.  For `BaseType` it is a plain
attribute write; for `SequenceType` the property setter stores the composite
value and distributes each child's column by following the child's dotted
path relative to the sequence's id (`reduce(operator.getitem, [data] +
tokens)`); data assignment to other containers is outside the model. -/
mutual

def setNodeData : Node → PyData → Option Node
  | .mk .base n i a _ dm ch, d => some (.mk .base n i a d dm ch)
  | .mk .seq n i a _ dm ch, d =>
      match setChildrenData i.length d ch with
      | Option.none => Option.none
      | some ch' => some (.mk .seq n i a d dm ch')
  | _, _ => Option.none

def setChildrenData : Nat → PyData → List (String × Node) → Option (List (String × Node))
  | _, _, [] => some []
  | idLen, d, (key, c) :: rest =>
      let tokens := (splitOnChar '.' (c.nid.toList.drop (idLen + 1))).map String.mk
      match tokens.foldlM (fun acc t => pyGetField acc t) d with
      | Option.none => Option.none
      | some nd =>
          match setNodeData c nd with
          | Option.none => Option.none
          | some c' =>
              match setChildrenData idLen d rest with
              | Option.none => Option.none
              | some rest' => some ((key, c') :: rest')

end

/-- Ctor argument for `clone`: `SequenceType.clone` passes `self.data` to the
constructor, the other containers construct without data. -/
def cloneInitData : NKind → PyData → PyData
  | .seq, d => d
  | _, _ => .none

/- `clone`: a fresh node of the same class built from name, attributes (and
data for sequences), its id copied, and every child cloned and re-inserted in
key order. -/
mutual

def cloneNode : Node → Except String Node
  | .mk .base n i a d dm ch => .ok (.mk .base (pyQuote n) i a d dm ch)
  | .mk k n i a d dm ch =>
      cloneFold (.mk k (pyQuote n) i a (cloneInitData k d) dm []) ch

def cloneFold (acc : Node) : List (String × Node) → Except String Node
  | [] => .ok acc
  | (_, c) :: rest =>
      match cloneNode c with
      | .error e => .error e
      | .ok c' =>
          match acc.setItem c.name c' with
          | .error e => .error e
          | .ok acc' => cloneFold acc' rest

end

/-- An index accepted by `SequenceType.__getitem__`: a child name, a tuple of
names, or any other index (slice / boolean mask / ...). -/
inductive SKey where
  | name (n : String)
  | names (ns : List String)
  | idx (ix : Idx)

/-- The loop of the tuple branch of `SequenceType.__getitem__`:
`out[name] = StructureType.__getitem__(self, name).clone()` for each selected
name. -/
def seqSelFold (src : Node) (acc : Node) : List String → Except String Node
  | [] => .ok acc
  | n :: rest =>
      match src.getChild n with
      | Option.none => .error "KeyError"
      | some c =>
          match cloneNode c with
          | .error e => .error e
          | .ok c' =>
              match acc.setItem n c' with
              | .error e => .error e
              | .ok acc' => seqSelFold src acc' rest

/-- `SequenceType.__getitem__`: a string returns the child; a tuple of names
builds a fresh sequence over the same data, inserts clones of the selected
children in tuple order and assigns the field-selected data (cascading the
columns); any other index clones the whole sequence and assigns the
row-filtered/sliced data. -/
def seqGetItem (s : Node) (k : SKey) : Except String Node :=
  match k with
  | .name nm =>
      match s.getChild nm with
      | some c => .ok c
      | Option.none => .error "KeyError"
  | .names ns =>
      let out0 : Node := .mk .seq (pyQuote s.name) (pyQuote s.name) s.attrs s.ddata [] []
      match seqSelFold s out0 ns with
      | .error e => .error e
      | .ok out1 =>
          match pyIndex s.ddata (.names ns) with
          | Option.none => .error "field selection failed"
          | some d' =>
              match setNodeData out1 d' with
              | Option.none => .error "data assignment failed"
              | some out2 => .ok out2
  | .idx ix =>
      match cloneNode s with
      | .error e => .error e
      | .ok out =>
          match pyIndex s.ddata ix with
          | Option.none => .error "index error"
          | some d' =>
              match setNodeData out d' with
              | Option.none => .error "data assignment failed"
              | some out2 => .ok out2

/-- The loop of `GridType.__getitem__`:
`for var, slice_ in zip(out.children(), [key] + list(key)): var.data =
self[var.name][slice_]` — `zip` stops at the shorter list, so trailing
children keep their data. -/
def gridZipApply (orig : Node) :
    List (String × Node) → List Idx → Except String (List (String × Node))
  | ch, [] => .ok ch
  | [], _ => .ok []
  | (key, c) :: rest, ix :: ixs =>
      match orig.getChild c.name with
      | Option.none => .error "KeyError"
      | some src =>
          match pyIndex src.ddata ix with
          | Option.none => .error "index error"
          | some d' =>
              match setNodeData c d' with
              | Option.none => .error "data assignment failed"
              | some c' =>
                  match gridZipApply orig rest ixs with
                  | .error e => .error e
                  | .ok rest' => .ok ((key, c') :: rest')

def Node.withChildren : Node → List (String × Node) → Node
  | .mk k n i a d dm _, ch => .mk k n i a d dm ch

/-- `GridType.__getitem__` for a non-string index: a non-tuple index is
wrapped into a one-element tuple, the grid is cloned, and the children are
zipped against `[key] + list(key)` — the whole tuple goes to the first child
(the array) and the tuple's elements go to the following children in
order. -/
def gridGetItem (g : Node) (key : Idx) : Except String Node :=
  let kt : List Idx :=
    match key with
    | .tup es => es
    | k => [k]
  match cloneNode g with
  | .error e => .error e
  | .ok out =>
      match gridZipApply g out.children (Idx.tup kt :: kt) with
      | .error e => .error e
      | .ok ch' => .ok (out.withChildren ch')

/-- Result of Python attribute access on a node: a child node or a metadata
value. -/
inductive AttrResult where
  | child (c : Node)
  | meta (v : PS)

/-- Dynamic attribute access: `StructureType.__getattr__` tries the child
lookup `self[attr]` first and only on failure falls back to
`DapType.__getattr__`, which reads `self.attributes[attr]` and otherwise
raises `AttributeError` (`none` here).  `BaseType` only has the metadata
fallback. -/
def Node.getattr (n : Node) (a : String) : Option AttrResult :=
  if n.kind = .base then (n.attrs.lookup a).map .meta
  else
    match n.children.lookup a with
    | some c => some (.child c)
    | Option.none => (n.attrs.lookup a).map .meta

/-- `BaseType.__gt__`: comparison delegated to the data. -/
def nodeGT (n : Node) (t : Int) : Option PyData :=
  pyGTData n.ddata t

/-! ### Supporting lemmas about the container operations -/

theorem Node.setId_name (n : Node) (i : String) : (n.setId i).name = n.name := by
  cases n
  rfl

theorem Node.setId_kind (n : Node) (i : String) : (n.setId i).kind = n.kind := by
  cases n
  rfl

mutual

/-- `_set_id` fully recomputes ids, so a second assignment wins. -/
theorem setId_setId (n : Node) (a b : String) : (n.setId a).setId b = n.setId b := by
  match n with
  | .mk k nm i at_ d dm ch =>
      simp only [Node.setId, setIdChildren_setIdChildren k a b ch]

theorem setIdChildren_setIdChildren (k : NKind) (a b : String)
    (ch : List (String × Node)) :
    setIdChildren k b (setIdChildren k a ch) = setIdChildren k b ch := by
  match ch with
  | [] => rfl
  | (key, c) :: rest =>
      simp only [setIdChildren, Node.setId_name, setId_setId c,
        setIdChildren_setIdChildren k a b rest]

end

theorem lookup_append_last {β : Type} (l : List (String × β)) (k : String) (v : β)
    (h : k ∉ l.map Prod.fst) : (l ++ [(k, v)]).lookup k = some v := by
  induction l with
  | nil => simp [List.lookup]
  | cons e t ih =>
      simp only [List.map_cons, List.mem_cons] at h
      push_neg at h
      have hbeq : (k == e.1) = false := beq_eq_false_iff_ne.mpr h.1
      simp only [List.cons_append, List.lookup, hbeq]
      exact ih h.2

theorem map_fst_eraseP {β : Type} (l : List (String × β)) (k : String) :
    (l.eraseP (fun e => e.1 == k)).map Prod.fst = (l.map Prod.fst).erase k := by
  induction l with
  | nil => simp
  | cons e t ih =>
      by_cases h : e.1 = k
      · simp [List.eraseP_cons, List.erase_cons, h]
      · simp [List.eraseP_cons, List.erase_cons, h, ih]

theorem map_update_noKey (l : List (String × Node)) (k : String)
    (h : k ∉ l.map Prod.fst) :
    l.map (fun e => if e.1 = k then (e.1, e.2.setId e.2.name) else e) = l := by
  induction l with
  | nil => rfl
  | cons e t ih =>
      simp only [List.map_cons, List.mem_cons] at h
      push_neg at h
      simp only [List.map_cons]
      rw [if_neg (fun hc => h.1 hc.symm), ih h.2]

theorem keys_erased_not_mem {β : Type} (l : List (String × β)) (k : String)
    (hnd : (l.map Prod.fst).Nodup) :
    k ∉ ((if (l.map Prod.fst).contains k then
        l.eraseP (fun e => e.1 == k) else l).map Prod.fst) := by
  by_cases hc : (l.map Prod.fst).contains k = true
  · rw [if_pos hc, map_fst_eraseP]
    intro hmem
    exact ((hnd.mem_erase_iff.mp hmem).1 rfl)
  · rw [if_neg hc]
    intro hmem
    exact hc (List.elem_eq_true_of_mem hmem)

/-- What a successful `StructureType.__setitem__` returns: success forces
`quote key == item.name`, and the children become the old list with any
binding for the key removed, plus the rebased item at the tail. -/
theorem structSetItemRaw_ok_form (ck : NKind) (n i : String)
    (a : List (String × PS)) (d : PyData) (dm : List String)
    (ch : List (String × Node)) (k : String) (x : Node) (C' : Node)
    (hname : x.name = k)
    (hok : structSetItemRaw (.mk ck n i a d dm ch) k x = .ok C') :
    pyQuote k = k ∧
    C' = .mk ck n i a d dm
      ((if (ch.map Prod.fst).contains k then
          ch.eraseP (fun e => e.1 == k) else ch)
        ++ [(k, x.setId (i ++ "." ++ k))]) := by
  simp only [structSetItemRaw] at hok
  split at hok
  · cases hok
  · rename_i hq
    push_neg at hq
    rw [hname] at hq
    refine ⟨hq, ?_⟩
    rw [Except.ok.injEq] at hok
    rw [← hok, hq, hname]

/-- The three C4 conclusions hold of any container whose children are a
k-free list with `(k, x')` appended. -/
theorem appended_child_spec (ck : NKind) (n i : String)
    (a : List (String × PS)) (d : PyData) (dm : List String)
    (ch1 : List (String × Node)) (k : String) (x' : Node)
    (hnk : k ∉ ch1.map Prod.fst) :
    (Node.mk ck n i a d dm (ch1 ++ [(k, x')])).getChild k = some x' ∧
    (Node.mk ck n i a d dm (ch1 ++ [(k, x')])).keys.count k = 1 ∧
    (Node.mk ck n i a d dm (ch1 ++ [(k, x')])).keys.getLast? = some k := by
  refine ⟨?_, ?_, ?_⟩
  · simpa only [Node.getChild, Node.children] using lookup_append_last ch1 k x' hnk
  · simp only [Node.keys, Node.children, List.map_append, List.map_cons, List.map_nil]
    rw [List.count_append, List.count_eq_zero.mpr hnk]
    simp
  · simp only [Node.keys, Node.children, List.map_append, List.map_cons, List.map_nil]
    exact List.getLast?_concat _

/-- The id a freshly inserted child receives. -/
def childIdFor (C : Node) (k : String) : String :=
  if C.kind = .dataset then k else C.nid ++ "." ++ k

theorem c4_structPath (ck : NKind) (n i : String) (a : List (String × PS))
    (d : PyData) (dm : List String) (ch : List (String × Node))
    (k : String) (x : Node) (C' : Node)
    (hname : x.name = k) (hnd : (ch.map Prod.fst).Nodup)
    (hkind : ck ≠ .dataset)
    (hok : structSetItemRaw (.mk ck n i a d dm ch) k x = .ok C') :
    C'.getChild k = some (x.setId (childIdFor (.mk ck n i a d dm ch) k)) ∧
    C'.keys.count k = 1 ∧ C'.keys.getLast? = some k := by
  obtain ⟨hq, hform⟩ := structSetItemRaw_ok_form ck n i a d dm ch k x C' hname hok
  subst hform
  have hcid : childIdFor (.mk ck n i a d dm ch) k = i ++ "." ++ k := by
    simp [childIdFor, Node.kind, Node.nid, hkind]
  rw [hcid]
  exact appended_child_spec ck n i a d dm _ k _ (keys_erased_not_mem ch k hnd)

/-- C4: after a successful `C[k] = x` with `x.name == k`, the stored child
under `k` is `x` (rebased to its new id), and `k` occurs exactly once in
`C`'s key order, at the tail — re-inserting an existing key moves it to the
end rather than duplicating it.  The `Nodup` hypothesis is the `_keys`/`_dict`
synchronisation invariant every reachable container satisfies. -/
theorem c4_insert_key_once_at_tail (C : Node) (k : String) (x : Node) (C' : Node)
    (hname : x.name = k) (hnd : C.keys.Nodup) (hok : C.setItem k x = .ok C') :
    C'.getChild k = some (x.setId (childIdFor C k)) ∧
    C'.keys.count k = 1 ∧ C'.keys.getLast? = some k := by
  obtain ⟨ck, n, i, a, d, dm, ch⟩ := C
  simp only [Node.keys, Node.children] at hnd
  cases ck
  case base =>
    simp only [Node.setItem, Node.kind] at hok
    cases hok
  case strct =>
    simp only [Node.setItem, Node.kind] at hok
    exact c4_structPath _ n i a d dm ch k x C' hname hnd (by decide) hok
  case seq =>
    simp only [Node.setItem, Node.kind] at hok
    exact c4_structPath _ n i a d dm ch k x C' hname hnd (by decide) hok
  case grid =>
    simp only [Node.setItem, Node.kind] at hok
    exact c4_structPath _ n i a d dm ch k x C' hname hnd (by decide) hok
  case dataset =>
    simp only [Node.setItem, Node.kind] at hok
    rw [if_neg (by rw [hname]; exact fun h => h rfl)] at hok
    rcases hr : structSetItemRaw (.mk .dataset n i a d dm ch) k x with e | c''
    · rw [hr] at hok
      cases hok
    · rw [hr] at hok
      rw [Except.ok.injEq] at hok
      obtain ⟨hq, hform⟩ := structSetItemRaw_ok_form .dataset n i a d dm ch k x c'' hname hr
      subst hform
      rw [← hok, hq]
      have hnk := keys_erased_not_mem ch k hnd
      simp only [Node.updateChild, List.map_append,
        map_update_noKey _ k hnk, List.map_cons, List.map_nil, if_pos rfl]
      have hx' : ((x.setId (i ++ "." ++ k)).setId ((x.setId (i ++ "." ++ k)).name)) =
          x.setId k := by
        rw [Node.setId_name, hname, setId_setId]
      rw [hx']
      have hcid : childIdFor (.mk .dataset n i a d dm ch) k = k := by
        simp [childIdFor, Node.kind]
      rw [hcid]
      exact appended_child_spec .dataset n i a d dm _ k _ hnk

/-- Witness for C4: inserting `x` named `"x"` into an empty structure named
`"C"` stores exactly the rebased `x` under key `"x"`, once, at the tail. -/
theorem c4_witness :
    ((mkBase "x" PyData.none [] []).name = "x") ∧
    (((mkStructure "C" []).setItem "x" (mkBase "x" PyData.none [] [])).toOption.map
        (fun C' => (C'.getChild "x", C'.keys.count "x", C'.keys.getLast?))) =
      some (some ((mkBase "x" PyData.none [] []).setId
        (childIdFor (mkStructure "C" []) "x")), 1, some "x") := by
  have hname : (mkBase "x" PyData.none [] []).name = "x" := by decide
  have hnd : (mkStructure "C" []).keys.Nodup := by decide
  have hok : (mkStructure "C" []).setItem "x" (mkBase "x" PyData.none [] []) =
      .ok (Node.mk .strct "C" "C" [] PyData.none []
        [("x", Node.mk .base "x" "C.x" [] PyData.none [] [])]) := rfl
  obtain ⟨h1, h2, h3⟩ := c4_insert_key_once_at_tail (mkStructure "C" []) "x"
    (mkBase "x" PyData.none [] []) _ hname hnd hok
  refine ⟨hname, ?_⟩
  rw [hok]
  simp [Except.toOption, h1, h2, h3]

def exceptIsError {ε α : Type} : Except ε α → Bool
  | .error _ => true
  | .ok _ => false

theorem structSetItemRaw_error (C : Node) (k : String) (x : Node)
    (hq : pyQuote k ≠ x.name) :
    structSetItemRaw C k x =
      .error ("Key " ++ pyQuote k ++ " is different from variable name " ++ x.name) := by
  obtain ⟨ck, n, i, a, d, dm, ch⟩ := C
  simp [structSetItemRaw, hq]

/-- C5 as amended: insertion fails with a validation error whenever the
*quoted* key differs from the child's name (for `DatasetType` additionally
whenever the raw key differs); a raw key that merely quotes to the child's
name is accepted.  The source raises before touching `_keys`/`_dict`, so the
embedding only ever returns the error, never a modified container. -/
theorem c5_key_mismatch_fails :
    (∀ (C : Node) (k : String) (x : Node), pyQuote k ≠ x.name →
      exceptIsError (C.setItem k x) = true) ∧
    (∀ (C : Node) (k : String) (x : Node), C.kind = .dataset → k ≠ x.name →
      exceptIsError (C.setItem k x) = true) := by
  constructor
  · intro C k x hq
    obtain ⟨ck, n, i, a, d, dm, ch⟩ := C
    cases ck
    case base => rfl
    case dataset =>
      by_cases hk : k = x.name
      · simp only [Node.setItem, Node.kind]
        rw [if_neg (fun h => h hk)]
        rw [structSetItemRaw_error _ k x hq]
        rfl
      · simp only [Node.setItem, Node.kind]
        rw [if_pos hk]
        rfl
    all_goals
      simp only [Node.setItem, Node.kind]
      rw [structSetItemRaw_error _ k x hq]
      rfl
  · intro C k x hkind hk
    obtain ⟨ck, n, i, a, d, dm, ch⟩ := C
    simp only [Node.kind] at hkind
    subst hkind
    simp only [Node.setItem, Node.kind]
    rw [if_pos hk]
    rfl

/-- C5 counterexample: the claim demands failure for *every* `k ≠ x.name`,
but a key whose quoted form equals the child's (already-quoted) name is
accepted: `C["a b"] = BaseType("a b")` succeeds even though the child is
actually named `"a%20b"`. -/
theorem c5_quoted_key_accepted_counterexample :
    "a b" ≠ (mkBase "a b" PyData.none [] []).name ∧
    (mkStructure "C" []).setItem "a b" (mkBase "a b" PyData.none [] []) =
      .ok (Node.mk .strct "C" "C" [] PyData.none []
        [("a%20b", Node.mk .base "a%20b" "C.a%20b" [] PyData.none [] [])]) := by
  constructor
  · decide
  · rfl

/-- Witness for the amended C5 at concrete inputs. -/
theorem c5_witness :
    exceptIsError ((mkStructure "C" []).setItem "y" (mkBase "x" PyData.none [] [])) = true ∧
    exceptIsError ((mkDataset "D" []).setItem "y" (mkBase "x" PyData.none [] [])) = true :=
  ⟨c5_key_mismatch_fails.1 (mkStructure "C" []) "y" (mkBase "x" PyData.none [] [])
      (by decide),
   c5_key_mismatch_fails.2 (mkDataset "D" []) "y" (mkBase "x" PyData.none [] [])
      (by decide) (by decide)⟩

/-! ### Claim C6: the id cascade -/

/-- `Dataset("D") ⊃ Struct("S") ⊃ Base("B")`, attaching the leaf first:
`s["B"] = b` then `d["S"] = s`, so the dataset insertion must rebase the
whole subtree. -/
def exampleTreeChildFirst : Except String Node := do
  let s1 ← (mkStructure "S" []).setItem "B" (mkBase "B" PyData.none [] [])
  (mkDataset "D" []).setItem "S" s1

/-- The same tree attached top-down: `d["S"] = s`, then `d["S"]["B"] = b`
(in Python the stored child is the same object, so the insertion lands in
the tree). -/
def exampleTreeParentFirst : Except String Node := do
  let d1 ← (mkDataset "D" []).setItem "S" (mkStructure "S" [])
  match d1.getChild "S" with
  | Option.none => .error "KeyError"
  | some s1 => do
      let s2 ← s1.setItem "B" (mkBase "B" PyData.none [] [])
      pure (d1.updateChild "S" (fun _ => s2))

/-- C6: in `Dataset("D") ⊃ Struct("S") ⊃ Base("B")` (either attachment
order) the ids are `S.id == "S"` and `B.id == "S.B"`: the dataset's own name
is excluded, the intermediate structure name included, and attaching the
subtree cascades the recomputation into the leaf. -/
theorem c6_id_cascade :
    (exampleTreeChildFirst.toOption.bind
      (fun t => (t.getChild "S").map Node.nid)) = some "S" ∧
    (exampleTreeChildFirst.toOption.bind
      (fun t => ((t.getChild "S").bind
        (fun s => s.getChild "B")).map Node.nid)) = some "S.B" ∧
    (exampleTreeParentFirst.toOption.bind
      (fun t => (t.getChild "S").map Node.nid)) = some "S" ∧
    (exampleTreeParentFirst.toOption.bind
      (fun t => ((t.getChild "S").bind
        (fun s => s.getChild "B")).map Node.nid)) = some "S.B" :=
  ⟨rfl, rfl, rfl, rfl⟩

/-! ### Claim C10: children shadow metadata -/

/-- C10: on containers, dynamic attribute access tries the child lookup
first, so a child always shadows an equally-named metadata entry; the
metadata map (and, through it, the missing-attribute error) is reached only
when no child of that name exists. -/
theorem c10_child_shadows_attribute :
    (∀ (n : Node) (a : String) (c : Node) (v : PS), n.kind ≠ .base →
      n.children.lookup a = some c → n.attrs.lookup a = some v →
      n.getattr a = some (.child c)) ∧
    (∀ (n : Node) (a : String), n.kind ≠ .base →
      n.children.lookup a = Option.none →
      n.getattr a = (n.attrs.lookup a).map .meta) := by
  constructor
  · intro n a c v hk hc _
    simp [Node.getattr, hk, hc]
  · intro n a hk hc
    simp [Node.getattr, hk, hc]

/-- Witness for C10: a structure with both a child `"x"` and a metadata
entry `"x"` resolves the attribute to the child; without the child, the
metadata entry is returned. -/
theorem c10_witness :
    (Node.mk .strct "C" "C" [("x", PS.s "meta")] PyData.none []
        [("x", Node.mk .base "x" "C.x" [] PyData.none [] [])]).getattr "x" =
      some (.child (Node.mk .base "x" "C.x" [] PyData.none [] [])) ∧
    (mkStructure "C" [("x", PS.s "meta")]).getattr "x" =
      ((mkStructure "C" [("x", PS.s "meta")]).attrs.lookup "x").map .meta :=
  ⟨c10_child_shadows_attribute.1
      (Node.mk .strct "C" "C" [("x", PS.s "meta")] PyData.none []
        [("x", Node.mk .base "x" "C.x" [] PyData.none [] [])])
      "x" (Node.mk .base "x" "C.x" [] PyData.none [] []) (PS.s "meta")
      (by decide) rfl rfl,
   c10_child_shadows_attribute.2 (mkStructure "C" [("x", PS.s "meta")]) "x"
      (by decide) rfl⟩

/-! ### Claim C8: grid indexing -/

/-- The docstring's rain grid: a 2×3 array child followed by its two
coordinate maps, each holding an opaque array that records the indexes
applied to it. -/
def rainGrid : Except String Node := do
  let g1 ← (mkGrid "rain" []).setItem "rain"
    (mkBase "rain" (.arr "A" []) ["y", "x"] [])
  let g2 ← g1.setItem "x" (mkBase "x" (.arr "X" []) [] [])
  g2.setItem "y" (mkBase "y" (.arr "Y" []) [] [])

/-- C8 counterexample: indexing the grid with a bare (non-tuple) index does
*not* leave the maps untouched — the first map is sliced with the bare
index (the zip pairs the array with the whole one-element tuple and the
first map with its element). -/
theorem c8_bare_index_slices_first_map_counterexample :
    (rainGrid.toOption.bind
      (fun g => (g.getChild "x").map Node.ddata)) = some (.arr "X" []) ∧
    ((do
        let g ← rainGrid
        gridGetItem g (.int 5)).toOption.bind
      (fun g => (g.getChild "x").map Node.ddata)) = some (.arr "X" [.int 5]) ∧
    PyData.arr "X" [Idx.int 5] ≠ PyData.arr "X" [] := by
  refine ⟨rfl, rfl, ?_⟩
  simp

/-- The name and data of each child of a grid-indexing result. -/
def gridChildSlices (r : Except String Node) : Option (List (String × PyData)) :=
  r.toOption.map (fun g => g.children.map (fun e : String × Node => (e.1, e.2.ddata)))

/-- `grid[(i0, i1)]` on the rain grid. -/
def gridTupIndexed (i0 i1 : Idx) : Except String Node := do
  let g ← rainGrid
  gridGetItem g (.tup [i0, i1])

/-- `grid[j]` (bare integer index) on the rain grid. -/
def gridBareIndexed (j : Int) : Except String Node := do
  let g ← rainGrid
  gridGetItem g (.int j)

/-- C8 as amended: a tuple index sends the *whole tuple* to the array (so
the array is sliced on all axes at once) and the element at position `i` to
the `i`-th map counting from the first; maps beyond the tuple's length are
untouched.  A bare index behaves as its one-element tuple: the array
receives `(key,)` and the *first* map receives the bare key, the remaining
maps staying untouched. -/
theorem c8_grid_indexing_amended :
    (∀ i0 i1 : Idx,
      gridChildSlices (gridTupIndexed i0 i1) =
        some [("rain", PyData.arr "A" [Idx.tup [i0, i1]]),
          ("x", PyData.arr "X" [i0]), ("y", PyData.arr "Y" [i1])]) ∧
    (∀ j : Int,
      gridChildSlices (gridBareIndexed j) =
        some [("rain", PyData.arr "A" [Idx.tup [.int j]]),
          ("x", PyData.arr "X" [.int j]), ("y", PyData.arr "Y" [])]) := by
  constructor
  · intro i0 i1
    rfl
  · intro j
    rfl

/-! ### Claim C9: sequence filtering, striding and field selection -/

/-- The docstring's example sequence, with the string field kept and the
float field dropped (the claim only constrains the integer `index`
field). -/
def seqExample : Except String Node := do
  let s1 ← (mkSequence "example" PyData.none []).setItem "index"
    (mkBase "index" PyData.none [] [])
  let s2 ← s1.setItem "site" (mkBase "site" PyData.none [] [])
  match setNodeData s2 (.sarr ["index", "site"]
      [[.i 10, .s "Diamond_St"], [.i 11, .s "Blacktail_Loop"],
        [.i 12, .s "Platinum_St"], [.i 13, .s "Kodiak_Trail"]]) with
  | some s3 => pure s3
  | Option.none => .error "data assignment failed"

/-- `seq.index > 10`: attribute access reaches the child, whose comparison
delegates to its data column. -/
def seqExampleMask : Option (List Bool) :=
  match seqExample with
  | .ok sq =>
      match sq.getattr "index" with
      | some (.child c) =>
          match nodeGT c 10 with
          | some (.pymask bs) => some bs
          | _ => Option.none
      | _ => Option.none
  | .error _ => Option.none

/-- `seq[seq.index > 10][::2]`. -/
def seqFilterStride : Except String Node := do
  let sq ← seqExample
  match seqExampleMask with
  | some bs => do
      let o1 ← seqGetItem sq (.idx (.mask bs))
      seqGetItem o1 (.idx (.slc Option.none Option.none (some 2)))
  | Option.none => .error "mask"

/-- `seq["site","index"][seq.index > 10][::2]`. -/
def seqSelectThenFilter : Except String Node := do
  let sq ← seqExample
  let out1 ← seqGetItem sq (.names ["site", "index"])
  match seqExampleMask with
  | some bs => do
      let out2 ← seqGetItem out1 (.idx (.mask bs))
      seqGetItem out2 (.idx (.slc Option.none Option.none (some 2)))
  | Option.none => .error "mask"

/-- `seq[seq.index > 10][::2]["site","index"]`. -/
def seqFilterThenSelect : Except String Node := do
  let sq ← seqExample
  match seqExampleMask with
  | some bs => do
      let out1 ← seqGetItem sq (.idx (.mask bs))
      let out2 ← seqGetItem out1 (.idx (.slc Option.none Option.none (some 2)))
      seqGetItem out2 (.names ["site", "index"])
  | Option.none => .error "mask"

/-- C9: on the rows `index = 10,11,12,13`, filtering `index > 10` and then
taking every second surviving row leaves the rows with index values 11 and
13; and applying the tuple field-selection before the row filtering yields
exactly the same sequence as applying it afterwards. -/
theorem c9_filter_stride_select_commute :
    seqExampleMask = some [false, true, true, true] ∧
    (seqFilterStride.toOption.bind
      (fun s => (s.getChild "index").map Node.ddata)) = some (.col [.i 11, .i 13]) ∧
    (seqFilterStride.toOption.map Node.ddata) =
      some (.sarr ["index", "site"]
        [[.i 11, .s "Blacktail_Loop"], [.i 13, .s "Kodiak_Trail"]]) ∧
    seqSelectThenFilter = seqFilterThenSelect ∧
    (seqFilterThenSelect.toOption.bind
      (fun s => (s.getChild "index").map Node.ddata)) = some (.col [.i 11, .i 13]) :=
  ⟨rfl, rfl, rfl, rfl, rfl⟩

/-! ## Claim C7: `pack_rows` / `unpack_rows`

Nested Python data for the row packer: atoms, lists and tuples.  Python's
`==` distinguishes a list from a tuple with the same elements, and `zip`
always produces a list of tuples, so the embedding keeps the distinction. -/

inductive PyObj where
  | atom (n : Int)
  | list (xs : List PyObj)
  | tuple (xs : List PyObj)
  deriving Repr

instance : Inhabited PyObj := ⟨.atom 0⟩

/-- Sequential `mapM` over `Option` (a Python comprehension whose body may
raise): stops at the first failure. -/
def optMapM {α β : Type} (f : α → Option β) : List α → Option (List β)
  | [] => some []
  | a :: t =>
      match f a with
      | Option.none => Option.none
      | some b =>
          match optMapM f t with
          | Option.none => Option.none
          | some bs => some (b :: bs)

/-- Iterate a Python sequence (list or tuple); atoms are not iterable. -/
def seqItems : PyObj → Option (List PyObj)
  | .list xs => some xs
  | .tuple xs => some xs
  | .atom _ => none

/-- The length of `zip(*cols)`: the minimum column length (`zip()` with no
arguments is empty). -/
def zipLen {α : Type} : List (List α) → Nat
  | [] => 0
  | [c] => c.length
  | c :: c2 :: cs => min c.length (zipLen (c2 :: cs))

/-- `zip(*cols)` as a list of rows (each row still a plain list here; the
call sites wrap rows in `tuple`). -/
def pyZip {α : Type} [Inhabited α] (cols : List (List α)) : List (List α) :=
  (List.range (zipLen cols)).map (fun i => cols.map (fun c => c.getD i default))

/-- `pack_rows(data, level)`: at level 0 the input is returned unchanged;
otherwise the columns are zipped into rows and each row (a tuple) is packed
one level lower.  `none` models the `TypeError` Python raises when a
non-sequence is zipped. -/
def pack_rows : Nat → PyObj → Option PyObj
  | 0, x => some x
  | l + 1, x =>
      match seqItems x with
      | Option.none => Option.none
      | some cols =>
          match optMapM seqItems cols with
          | Option.none => Option.none
          | some cis =>
              match optMapM (fun r => pack_rows l (.tuple r)) (pyZip cis) with
              | Option.none => Option.none
              | some packed => some (.list packed)

/-- `unpack_rows(data, level)`: at level 0 the input is returned unchanged;
otherwise each row is unpacked one level lower and the results are zipped
back into per-column tuples. -/
def unpack_rows : Nat → PyObj → Option PyObj
  | 0, x => some x
  | l + 1, x =>
      match seqItems x with
      | Option.none => Option.none
      | some rows =>
          match optMapM (fun r => unpack_rows l r) rows with
          | Option.none => Option.none
          | some us =>
              match optMapM seqItems us with
              | Option.none => Option.none
              | some uis => some (.list ((pyZip uis).map .tuple))

/-- Replace the containers in the top `l` levels of a value by tuples
(what a pack/unpack roundtrip does to each column). -/
def tupN : Nat → PyObj → PyObj
  | 0, x => x
  | l + 1, x =>
      match seqItems x with
      | some xs => .tuple (xs.map (tupN l))
      | Option.none => x

/-- Rectangularity of a family of columns to depth `l`, as the roundtrip
needs it: at each level every column is a sequence, all have one common
length, that length is positive unless there are no columns (a zipped level
of empty sequences forgets how many sequences there were), and the
transposed rows are rectangular one level deeper. -/
def rectB : Nat → List PyObj → Bool
  | 0, _ => true
  | l + 1, cols =>
      match optMapM seqItems cols with
      | Option.none => false
      | some cis =>
          match cis with
          | [] => true
          | c :: rest =>
              (decide (0 < c.length) && rest.all (fun r => r.length == c.length))
                && (pyZip cis).all (fun row => rectB l row)

/-- What one pack/unpack roundtrip returns: the input itself at level 0, and
otherwise a list of the tuplified columns. -/
def roundtripVal : Nat → PyObj → List PyObj → PyObj
  | 0, x, _ => x
  | l + 1, _, cols => .list (cols.map (tupN (l + 1)))

/-! Plumbing lemmas for `Option`-valued `mapM` and for `pyZip`. -/

theorem opt_mapM_total {α β : Type} (g : α → β) (L : List α) :
    optMapM (fun a => some (g a)) L = some (L.map g) := by
  induction L with
  | nil => rfl
  | cons a t ih => simp [optMapM, ih]

theorem opt_mapM_congr {α β : Type} {f f' : α → Option β} {L : List α}
    (h : ∀ a ∈ L, f a = f' a) : optMapM f L = optMapM f' L := by
  induction L with
  | nil => rfl
  | cons a t ih =>
      simp only [optMapM, h a (by simp)]
      rw [ih (fun a ha => h a (by simp [ha]))]

theorem opt_mapM_map {α β γ : Type} (g : α → β) (f : β → Option γ) (L : List α) :
    optMapM f (L.map g) = optMapM (fun a => f (g a)) L := by
  induction L with
  | nil => rfl
  | cons a t ih => simp [optMapM, ih]

theorem opt_mapM_bind_fusion {α β γ : Type} (f : α → Option β) (g : β → Option γ)
    (L : List α) :
    (optMapM f L).bind (fun L' => optMapM g L') = optMapM (fun a => (f a).bind g) L := by
  induction L with
  | nil => rfl
  | cons a t ih =>
      rcases hfa : f a with _ | b
      · simp [optMapM, hfa]
      · rcases hga : g b with _ | c
        · simp [optMapM, hfa, hga, ← ih]
          rcases ht : optMapM f t with _ | L' <;> simp [optMapM, hga]
        · simp [optMapM, hfa, hga, ← ih]
          rcases ht : optMapM f t with _ | L' <;> simp [optMapM, hga]

theorem opt_mapM_eq_nil {α β : Type} {f : α → Option β} {L : List α}
    (h : optMapM f L = some []) : L = [] := by
  cases L with
  | nil => rfl
  | cons a t =>
      rcases hfa : f a with _ | b <;>
        rcases ht : optMapM f t with _ | L' <;>
          simp [optMapM, hfa, ht] at h

theorem map_tupN_zero (L : List PyObj) : L.map (tupN 0) = L := by
  induction L with
  | nil => rfl
  | cons a t ih => simp [tupN, ih]

theorem seqItems_roundtripVal (l : Nat) (x : PyObj) (cols : List PyObj)
    (hx : seqItems x = some cols) :
    seqItems (roundtripVal l x cols) = some (cols.map (tupN l)) := by
  cases l with
  | zero => rw [roundtripVal, hx, map_tupN_zero]
  | succ l => rfl

theorem map_tupN_of_mapM (l : Nat) :
    ∀ (cols : List PyObj) (cis : List (List PyObj)),
      optMapM seqItems cols = some cis →
      cols.map (tupN (l + 1)) =
        cis.map (fun ci => PyObj.tuple (ci.map (tupN l))) := by
  intro cols
  induction cols with
  | nil =>
      intro cis h
      simp only [optMapM] at h
      cases h
      rfl
  | cons a t ih =>
      intro cis h
      rcases ha : seqItems a with _ | b
      · simp [optMapM, ha] at h
      · rcases ht : optMapM seqItems t with _ | bs
        · simp [optMapM, ha, ht] at h
        · simp only [optMapM, ha, ht] at h
          simp only [Option.pure_def, Option.bind_some, Option.some.injEq] at h
          subst h
          simp only [List.map_cons]
          rw [ih bs ht]
          have hhead : tupN (l + 1) a = PyObj.tuple (b.map (tupN l)) := by
            rw [tupN, ha]
          rw [hhead]

theorem zipLen_eq {α : Type} (n : Nat) (cis : List (List α)) (hne : cis ≠ [])
    (hlen : ∀ c ∈ cis, c.length = n) : zipLen cis = n := by
  induction cis with
  | nil => cases hne rfl
  | cons c rest ih =>
      cases rest with
      | nil => simp [zipLen, hlen c (by simp)]
      | cons c2 r2 =>
          rw [zipLen,
            ih (by simp) (fun c' hc' => hlen c' (List.mem_cons_of_mem _ hc')),
            hlen c (by simp)]
          exact Nat.min_self n

theorem length_pyZip {α : Type} [Inhabited α] (cis : List (List α)) :
    (pyZip cis).length = zipLen cis := by
  simp [pyZip]

theorem pyZip_getElem {α : Type} [Inhabited α] (cis : List (List α)) (i : Nat)
    (h : i < (pyZip cis).length) :
    (pyZip cis)[i] = cis.map (fun c => c.getD i default) := by
  simp [pyZip]

theorem mem_pyZip {α : Type} [Inhabited α] {cis : List (List α)} {row : List α}
    (h : row ∈ pyZip cis) :
    ∃ i, i < zipLen cis ∧ row = cis.map (fun c => c.getD i default) := by
  simp only [pyZip, List.mem_map, List.mem_range] at h
  obtain ⟨i, hi, heq⟩ := h
  exact ⟨i, hi, heq.symm⟩

/-- Transposing twice recovers the columns (with a map threaded through):
the key fact behind the pack/unpack roundtrip.  Positivity of the common
length is needed because `zip` forgets how many empty sequences it was
given. -/
theorem pyZip_pyZip_map {α : Type} [Inhabited α] (f : α → α)
    (cis : List (List α)) (n : Nat) (hn : 0 < n)
    (hlen : ∀ c ∈ cis, c.length = n) :
    pyZip ((pyZip cis).map (List.map f)) = cis.map (List.map f) := by
  rcases eq_or_ne cis [] with rfl | hne
  · simp [pyZip, zipLen]
  · have hzl : zipLen cis = n := zipLen_eq n cis hne hlen
    have hlrows : (pyZip cis).length = n := by rw [length_pyZip, hzl]
    have hrowlen : ∀ r ∈ pyZip cis, r.length = cis.length := by
      intro r hr
      obtain ⟨i, hi, rfl⟩ := mem_pyZip hr
      simp
    have hrows'len : ∀ r' ∈ (pyZip cis).map (List.map f), r'.length = cis.length := by
      intro r' hr'
      obtain ⟨r, hr, rfl⟩ := List.mem_map.mp hr'
      simp [hrowlen r hr]
    have hne' : (pyZip cis).map (List.map f) ≠ [] := by
      intro hc
      rw [List.map_eq_nil_iff] at hc
      rw [← length_pyZip, hc] at hzl
      simp at hzl
      omega
    have hzl' : zipLen ((pyZip cis).map (List.map f)) = cis.length :=
      zipLen_eq _ _ hne' hrows'len
    apply List.ext_getElem
    · rw [length_pyZip, hzl', List.length_map]
    · intro j h1 h2
      rw [pyZip_getElem _ j h1, List.getElem_map]
      have hj : j < cis.length := by
        rw [length_pyZip, hzl'] at h1
        exact h1
      apply List.ext_getElem
      · simp [hlrows, hlen cis[j] (List.getElem_mem hj)]
      · intro i hi1 hi2
        have hi : i < n := by
          simpa [hlrows] using hi1
        simp only [List.getElem_map]
        have hi1' : i < (pyZip cis).length := by simpa [hlrows] using hi
        rw [pyZip_getElem cis i hi1', List.map_map]
        have hjlt : j < (cis.map (f ∘ fun c => c.getD i default)).length := by
          simpa using hj
        rw [List.getD_eq_getElem _ _ hjlt, List.getElem_map]
        simp only [Function.comp]
        rw [List.getD_eq_getElem _ _ (by rw [hlen cis[j] (List.getElem_mem hj)]; exact hi)]

theorem rectB_succ_elim {l : Nat} {cols : List PyObj}
    (h : rectB (l + 1) cols = true) :
    ∃ cis : List (List PyObj), optMapM seqItems cols = some cis ∧
      (cis = [] ∨ ∃ n, 0 < n ∧ ∀ c ∈ cis, c.length = n) ∧
      (∀ row ∈ pyZip cis, rectB l row = true) := by
  rw [rectB] at h
  rcases hm : optMapM seqItems cols with _ | cis
  · rw [hm] at h
    cases h
  · rw [hm] at h
    refine ⟨cis, rfl, ?_, ?_⟩
    · cases cis with
      | nil => exact Or.inl rfl
      | cons c rest =>
          simp only [Bool.and_eq_true, decide_eq_true_eq, List.all_eq_true,
            beq_iff_eq] at h
          refine Or.inr ⟨c.length, h.1.1, ?_⟩
          intro c' hc'
          rcases List.mem_cons.mp hc' with rfl | hmem
          · rfl
          · exact h.1.2 c' hmem
    · cases cis with
      | nil =>
          intro row hrow
          simp [pyZip, zipLen] at hrow
      | cons c rest =>
          simp only [Bool.and_eq_true, List.all_eq_true] at h
          exact h.2

theorem roundtrip_step (l : Nat)
    (ih : ∀ (x : PyObj) (cols : List PyObj), seqItems x = some cols →
      rectB l cols = true →
      (pack_rows l x).bind (unpack_rows l) = some (roundtripVal l x cols)) :
    ∀ (x : PyObj) (cols : List PyObj), seqItems x = some cols →
      rectB (l + 1) cols = true →
      (pack_rows (l + 1) x).bind (unpack_rows (l + 1)) =
        some (roundtripVal (l + 1) x cols) := by
  intro x cols hx hrect
  obtain ⟨cis, hcis, hshape, hrows⟩ := rectB_succ_elim hrect
  have hpoint : ∀ r ∈ pyZip cis,
      (pack_rows l (.tuple r)).bind (fun p => unpack_rows l p) =
        some (roundtripVal l (.tuple r) r) :=
    fun r hr => ih (.tuple r) r rfl (hrows r hr)
  have hfuse : (optMapM (fun r => pack_rows l (.tuple r)) (pyZip cis)).bind
      (fun packed => optMapM (fun r => unpack_rows l r) packed) =
      some ((pyZip cis).map (fun r => roundtripVal l (.tuple r) r)) := by
    rw [opt_mapM_bind_fusion, opt_mapM_congr hpoint]
    exact opt_mapM_total _ _
  rcases hpk : optMapM (fun r => pack_rows l (.tuple r)) (pyZip cis) with _ | packed
  · rw [hpk] at hfuse
    simp at hfuse
  · rw [hpk] at hfuse
    simp only [Option.some_bind] at hfuse
    have hpack : pack_rows (l + 1) x = some (.list packed) := by
      simp only [pack_rows, hx, hcis, hpk]
    rw [hpack, Option.some_bind]
    have hseq : optMapM seqItems
        ((pyZip cis).map (fun r => roundtripVal l (.tuple r) r)) =
        some ((pyZip cis).map (fun r => r.map (tupN l))) := by
      rw [opt_mapM_map,
        opt_mapM_congr (fun r _ => seqItems_roundtripVal l (.tuple r) r rfl)]
      exact opt_mapM_total _ _
    have hfinal : (pyZip ((pyZip cis).map (fun r => r.map (tupN l)))).map PyObj.tuple =
        cols.map (tupN (l + 1)) := by
      have hmm : (fun r : List PyObj => r.map (tupN l)) = List.map (tupN l) := rfl
      rw [hmm]
      rcases hshape with rfl | ⟨n, hn, hlen⟩
      · have hcn : cols = [] := opt_mapM_eq_nil hcis
        subst hcn
        simp [pyZip, zipLen]
      · rw [pyZip_pyZip_map (tupN l) cis n hn hlen, List.map_map,
          map_tupN_of_mapM l cols cis hcis]
        simp [Function.comp]
    simp only [unpack_rows, seqItems, hfuse, hseq, hfinal]
    rfl

/-- One roundtrip: for every rectangular family of columns, packing at level
`l` and unpacking again returns a list of the columns with their top `l`
levels of containers turned into tuples (the input itself at level 0). -/
theorem pack_unpack_roundtrip (l : Nat) :
    ∀ (x : PyObj) (cols : List PyObj), seqItems x = some cols →
      rectB l cols = true →
      (pack_rows l x).bind (unpack_rows l) = some (roundtripVal l x cols) := by
  induction l with
  | zero =>
      intro x cols _ _
      rfl
  | succ l ih => exact roundtrip_step l ih

/-- C7 counterexample: on the rectangular depth-1 input
`[[1, 2], [3, 4]]` (a list of list columns) the roundtrip returns the
columns as *tuples*, so Python's `==` against the original data is false:
`unpack(pack(data, 1), 1)` is `[(1, 2), (3, 4)]`, not `[[1, 2], [3, 4]]`. -/
theorem c7_roundtrip_tuple_coercion_counterexample :
    rectB 1 [.list [.atom 1, .atom 2], .list [.atom 3, .atom 4]] = true ∧
    (pack_rows 1 (.list [.list [.atom 1, .atom 2], .list [.atom 3, .atom 4]])).bind
        (unpack_rows 1) =
      some (.list [.tuple [.atom 1, .atom 2], .tuple [.atom 3, .atom 4]]) ∧
    PyObj.list [.tuple [.atom 1, .atom 2], .tuple [.atom 3, .atom 4]] ≠
      PyObj.list [.list [.atom 1, .atom 2], .list [.atom 3, .atom 4]] := by
  refine ⟨rfl, rfl, ?_⟩
  simp

/-- C7 as amended: at level 0 both `pack_rows` and `unpack_rows` return
their input unchanged; and for every rectangular family of columns (all
sequences of one common positive length at each of the `L` zipped levels),
`unpack(pack([cols], L), L)` returns the columns with every container in
their top `L` levels coerced to a tuple — so it equals the original data
exactly when those containers are already tuples, and differs from it (by
container type only) otherwise. -/
theorem c7_roundtrip_amended :
    (∀ x : PyObj, pack_rows 0 x = some x ∧ unpack_rows 0 x = some x) ∧
    (∀ (L : Nat) (cols : List PyObj), rectB L cols = true →
      (pack_rows L (.list cols)).bind (unpack_rows L) =
        some (roundtripVal L (.list cols) cols)) := by
  constructor
  · intro x
    exact ⟨rfl, rfl⟩
  · intro L cols h
    exact pack_unpack_roundtrip L (.list cols) cols rfl h

/-- Witness for the amended C7: the docstring's nested two-level example
(with integer atoms), where the roundtrip reproduces the columns with
tuples below the top level. -/
theorem c7_roundtrip_witness :
    rectB 2 [.list [.list [.atom 1, .atom 2], .list [.atom 3]],
      .list [.list [.atom 4, .atom 5], .list [.atom 6]]] = true ∧
    (pack_rows 2 (.list [.list [.list [.atom 1, .atom 2], .list [.atom 3]],
        .list [.list [.atom 4, .atom 5], .list [.atom 6]]])).bind (unpack_rows 2) =
      some (roundtripVal 2
        (.list [.list [.list [.atom 1, .atom 2], .list [.atom 3]],
          .list [.list [.atom 4, .atom 5], .list [.atom 6]]])
        [.list [.list [.atom 1, .atom 2], .list [.atom 3]],
          .list [.list [.atom 4, .atom 5], .list [.atom 6]]]) :=
  ⟨rfl, c7_roundtrip_amended.2 2
    [.list [.list [.atom 1, .atom 2], .list [.atom 3]],
      .list [.list [.atom 4, .atom 5], .list [.atom 6]]] rfl⟩

end PydapPdp
